import Mathlib

/-!
# Verification of the pod-listing / pod-deletion backend

Shallow embedding of `app/backend/routes/kubernetes.py` (the pod listing
pipeline `get_kubernetes_pods` and the deletion guard `delete_kubernetes_pod`)
and of the IMDS denylist in `app/backend/helpers/networking.py` together with
the guard at the top of `make_http_request` in
`app/backend/routes/networking.py`.

Conventions used throughout the embedding:
* Python `None`-able fields become `Option`; Python truthiness tests on them
  (`if pod.status.conditions:` etc.) test `some`-ness and non-emptiness as the
  original would.
* Upstream Kubernetes API calls are modelled by their results: a per-namespace
  lookup function returning `Except` (an exception or a list of raw pods) and,
  for the cluster-wide call, the returned list itself.
* Python's `list.sort(key=k, reverse=r)` (Timsort) is a stable sort; it is
  modelled by `List.mergeSort` (also stable) with the comparison
  `key a ≤ key b` (resp. `key b ≤ key a` when `reverse=True`, which is exactly
  Python's reversed-comparison-with-preserved-tie-order semantics).
* Machine integers are `Nat`: every integer in the modelled fragment (page
  numbers, sizes, counts, restart counts) is non-negative and far from any
  overflow boundary.
-/

/-! ## Raw Kubernetes pod objects (the upstream API's view) -/

/-- One entry of `pod.status.conditions`. -/
structure PodCondition where
  type : String
  status : String
deriving DecidableEq, Repr

/-- One entry of `pod.spec.containers`. -/
structure Container where
  image : String
deriving DecidableEq, Repr

/-- One entry of `pod.status.container_statuses`. -/
structure ContainerStatus where
  restart_count : Nat
deriving DecidableEq, Repr

/-- `pod.metadata`: name, namespace, creation timestamp (already rendered to
its ISO string, `none` when absent upstream) and labels. -/
structure PodMetadata where
  name : String
  «namespace» : String
  creation_timestamp : Option String
  labels : Option (List (String × String))
deriving DecidableEq, Repr

/-- `pod.spec`. -/
structure PodSpec where
  containers : List Container
  node_name : Option String
deriving DecidableEq, Repr

/-- `pod.status`. -/
structure PodStatus where
  phase : String
  conditions : Option (List PodCondition)
  container_statuses : Option (List ContainerStatus)
  pod_ip : Option String
  host_ip : Option String
deriving DecidableEq, Repr

/-- A raw pod object as returned by the Kubernetes client. -/
structure RawPod where
  metadata : PodMetadata
  spec : PodSpec
  status : PodStatus
deriving DecidableEq, Repr

/-! ## Response models (`helpers/models.py`) -/

/-- `PodInfo` from `helpers/models.py`. -/
structure PodInfo where
  id : String
  name : String
  «namespace» : String
  created_timestamp : String
  phase : String
  healthy : Bool
  ready : String
  restart_count : Nat
  image : String
  node_name : Option String
  pod_ip : Option String
  host_ip : Option String
  app_name : Option String
deriving DecidableEq, Repr

/-- `PaginationInfo` from `helpers/models.py`. -/
structure PaginationInfo where
  page : Nat
  page_size : Nat
  total_items : Nat
  total_pages : Nat
  has_next : Bool
  has_previous : Bool
  max_limit_reached : Bool
deriving DecidableEq, Repr

/-- `KubernetesResponse` from `helpers/models.py`, restricted to the success
path of `get_kubernetes_pods` (where `pagination` is always populated). -/
structure KubernetesResponse where
  pods : List PodInfo
  pagination : PaginationInfo
  max_limit_reached : Bool
  error : Option String
deriving DecidableEq, Repr

/-- `DeletePodResponse` from `helpers/models.py`. -/
structure DeletePodResponse where
  success : Bool
  message : String
  error : Option String
deriving DecidableEq, Repr

/-! ## Python string primitives

Python strings are sequences of code points; the string operations the code
uses (`<` comparison inside `list.sort`, `str.split(",")`, `str.strip()`,
`str.lower()`) are modelled on the underlying character list `String.data`. -/

/-- Python string comparison `a <= b`: lexicographic by code point. -/
def charListLe : List Char → List Char → Bool
  | [], _ => true
  | _ :: _, [] => false
  | a :: as, b :: bs =>
    if a < b then true
    else if b < a then false
    else charListLe as bs

/-- `a <= b` on Python strings. -/
def strLe (a b : String) : Bool := charListLe a.data b.data

/-- `a <= b` on Python ints (here all non-negative). -/
def natLe (a b : Nat) : Bool := a ≤ b

/-- The whitespace characters stripped by `str.strip()` (the ASCII ones; the
filter strings in scope never contain the exotic Unicode spaces Python would
also strip). -/
def isPySpace (c : Char) : Bool :=
  c = ' ' || c = '\t' || c = '\n' || c = '\r' || c = '\x0b' || c = '\x0c'

/-- `str.strip()`: drop leading and trailing whitespace. -/
def pyStrip (s : String) : String :=
  ⟨((s.data.dropWhile isPySpace).reverse.dropWhile isPySpace).reverse⟩

/-- `str.split(",")` on the character list: split at every comma, keeping
empty chunks (as Python does). -/
def splitOnCommaChars : List Char → List (List Char)
  | [] => [[]]
  | c :: rest =>
    match splitOnCommaChars rest with
    | [] => [[c]]
    | cur :: groups =>
      if c = ',' then [] :: cur :: groups else (c :: cur) :: groups

/-- `str.split(",")`. -/
def pySplitComma (s : String) : List String :=
  (splitOnCommaChars s.data).map (⟨·⟩)

/-- `str.lower()` (code-point-wise lowering). -/
def pyLower (s : String) : String := ⟨s.data.map Char.toLower⟩

/-! ## The pod record normalizer (`get_kubernetes_pods`, processing loop)

Lines 259-313 of `routes/kubernetes.py`: the body of the `for pod in all_pods`
loop, after the status filter, is a pure function from one raw pod to one
`PodInfo`. -/

/-- The `ready_count` computation:
`ready_count = 0`, then the first condition with `type == "Ready"` and
`status == "True"` sets `ready_count = total_containers` and breaks. -/
def readyCountLoop (total : Nat) : List PodCondition → Nat
  | [] => 0
  | c :: cs =>
    if c.type = "Ready" ∧ c.status = "True" then total
    else readyCountLoop total cs

/-- `ready_count` of a raw pod: the loop above runs only when
`pod.status.conditions` is truthy (a `for` over an absent list contributes
nothing either way). -/
def ready_count (pod : RawPod) : Nat :=
  match pod.status.conditions with
  | some cs => readyCountLoop pod.spec.containers.length cs
  | none => 0

/-- `restart_count`: sum of `restart_count` over `pod.status.container_statuses`
(0 when that field is absent). -/
def restart_count (pod : RawPod) : Nat :=
  match pod.status.container_statuses with
  | some l => (l.map (·.restart_count)).sum
  | none => 0

/-- `image`: the first container's image, `""` when there are no containers. -/
def podImage (pod : RawPod) : String :=
  match pod.spec.containers with
  | [] => ""
  | c :: _ => c.image

/-- Python's `x or y` on optional strings: `x` when it is truthy
(present and non-empty), else `y`. -/
def pyOr (x y : Option String) : Option String :=
  match x with
  | some s => if s = "" then y else some s
  | none => y

/-- `labels_name = pod.metadata.labels.get("name") or pod.metadata.labels.get("app")`,
guarded by `if pod.metadata.labels:` (truthy = present and non-empty). -/
def labelsName (labels : Option (List (String × String))) : Option String :=
  match labels with
  | some l => if l = [] then none else pyOr (l.lookup "name") (l.lookup "app")
  | none => none

/-- The pod record normalizer: one iteration of the processing loop
(after the status filter) building a `PodInfo`. -/
def normalizePod (pod : RawPod) : PodInfo :=
  let total_containers := pod.spec.containers.length
  let rc := ready_count pod
  { id := pod.metadata.«namespace» ++ "-" ++ pod.metadata.name
    name := pod.metadata.name
    «namespace» := pod.metadata.«namespace»
    created_timestamp :=
      match pod.metadata.creation_timestamp with
      | some ts => ts
      | none => ""
    phase := pod.status.phase
    healthy := rc = total_containers ∧ pod.status.phase = "Running"
    ready := toString rc ++ "/" ++ toString total_containers
    restart_count := restart_count pod
    image := podImage pod
    node_name := pod.spec.node_name
    pod_ip := pod.status.pod_ip
    host_ip := pod.status.host_ip
    app_name := labelsName pod.metadata.labels }

/-- The client-side status filter guarding the processing loop:
`if statuses and pod.status.phase not in statuses: continue`.
A pod is kept iff `statuses` is empty or its phase is listed. -/
def keepPod (statuses : List String) (pod : RawPod) : Bool :=
  statuses.isEmpty || statuses.contains pod.status.phase

/-- The whole processing loop (lines 252-313): filter then normalize. -/
def processPods (statuses : List String) (all_pods : List RawPod) : List PodInfo :=
  (all_pods.filter (keepPod statuses)).map normalizePod

/-! ## Sorting (lines 324-338) -/

/-- The ordering used to model `pods.sort(key=key, reverse=reverse_sort)`:
`key a ≤ key b`, flipped when `reverse_sort`.  Ties relate `true` in both
directions, so a stable sort keeps their original order — exactly Python's
stable-sort semantics (with `reverse=True` Python still preserves the original
order of equal keys). -/
def pyKeyLe {β : Type} (le : β → β → Bool) (key : PodInfo → β)
    (reverse_sort : Bool) (a b : PodInfo) : Prop :=
  (if reverse_sort then le (key b) (key a) else le (key a) (key b)) = true

instance pyKeyLe.decRel {β : Type} (le : β → β → Bool) (key : PodInfo → β)
    (reverse_sort : Bool) : DecidableRel (pyKeyLe le key reverse_sort) :=
  fun _ _ => instDecidableEqBool _ true

/-- The sorting dispatch of lines 324-338, with Python's stable `list.sort`
modelled by the (stable) insertion sort. The final `else` branch is the code's
fallback `pods.sort(key=lambda x: x.name, reverse=reverse_sort)`. -/
def sortPods (sort_by : String) (reverse_sort : Bool) (pods : List PodInfo) :
    List PodInfo :=
  if sort_by = "name" then
    pods.insertionSort (pyKeyLe strLe (·.name) reverse_sort)
  else if sort_by = "namespace" then
    pods.insertionSort (pyKeyLe strLe (·.«namespace») reverse_sort)
  else if sort_by = "phase" then
    pods.insertionSort (pyKeyLe strLe (·.phase) reverse_sort)
  else if sort_by = "created_timestamp" then
    pods.insertionSort (pyKeyLe strLe (·.created_timestamp) reverse_sort)
  else if sort_by = "restart_count" then
    pods.insertionSort (pyKeyLe natLe (·.restart_count) reverse_sort)
  else pods.insertionSort (pyKeyLe strLe (·.name) reverse_sort)

/-! ## Filter → sort → paginate → assemble (lines 251-393) -/

/-- The success path of `get_kubernetes_pods` after the fetch stage: takes the
parsed `statuses`, the raw fetched pods and the fetch stage's
`max_limit_reached` flag, and produces the response.  Mirrors lines 251-393:
process, sort, slice, truncation-adjust the totals, then build
`PaginationInfo` and `KubernetesResponse`. -/
def processRequest (page page_size : Nat) (sort_by sort_order : String)
    (statuses : List String) (all_pods : List RawPod)
    (max_limit_reached₀ : Bool) : KubernetesResponse :=
  let pods := processPods statuses all_pods
  let reverse_sort := pyLower sort_order = "desc"
  let sorted := sortPods sort_by reverse_sort pods
  let total_items₀ := sorted.length
  let start_idx := (page - 1) * page_size
  let end_idx := start_idx + page_size
  let paginated_pods := (sorted.drop start_idx).take (end_idx - start_idx)
  let max_fetch_limit := min (page_size * 10) 1000
  let hit_limit := all_pods.length ≥ max_fetch_limit
  let max_limit_reached := if hit_limit then true else max_limit_reached₀
  let total_items :=
    if hit_limit then 1000
    else if max_limit_reached₀ then max 1000 total_items₀
    else total_items₀
  let total_pages :=
    if total_items > 0 then (total_items + page_size - 1) / page_size else 1
  let has_next := end_idx < total_items
  let has_previous := page > 1
  { pods := paginated_pods
    pagination :=
      { page := page
        page_size := page_size
        total_items := total_items
        total_pages := total_pages
        has_next := has_next
        has_previous := has_previous
        max_limit_reached := max_limit_reached }
    max_limit_reached := max_limit_reached
    error := none }

/-! ## The fetch stage (lines 170-225) -/

/-- The per-namespace fan-out loop (lines 179-206): each namespace's list call
either raises (`Except.error`, caught: `continue`) or returns items
(appended); when the running total reaches 1000 the loop breaks with
`max_limit_reached = True`. -/
def fetchLoop : List (Except String (List RawPod)) → List RawPod →
    List RawPod × Bool
  | [], acc => (acc, false)
  | r :: rs, acc =>
    match r with
    | .error _ => fetchLoop rs acc
    | .ok items =>
      let acc' := acc ++ items
      if acc'.length ≥ 1000 then (acc', true)
      else fetchLoop rs acc'

/-- The fetch stage: fan-out over the requested namespaces when there are any
(each namespace's call result given by `nsLookup`), otherwise one cluster-wide
call whose returned items are `clusterItems` (lines 207-225); the cluster-wide
branch flags `max_limit_reached` when 1000 items came back. -/
def fetchPods (namespaces : List String)
    (nsLookup : String → Except String (List RawPod))
    (clusterItems : List RawPod) : List RawPod × Bool :=
  if namespaces.isEmpty then (clusterItems, clusterItems.length ≥ 1000)
  else fetchLoop (namespaces.map nsLookup) []

/-- Parsing of `namespace_filter` / `status_filter` (lines 119-127):
split on commas, strip, drop falsy entries; an absent or empty parameter
yields the empty list. -/
def parseFilter : Option String → List String
  | none => []
  | some s =>
    if s = "" then []
    else ((pySplitComma s).map pyStrip).filter (fun e => e ≠ "")

/-- The whole `get_kubernetes_pods` success path: parse the filters, fetch
(fan-out or cluster-wide), then filter/sort/paginate/assemble. -/
def get_kubernetes_pods (page page_size : Nat) (sort_by sort_order : String)
    (namespace_filter status_filter : Option String)
    (nsLookup : String → Except String (List RawPod))
    (clusterItems : List RawPod) : KubernetesResponse :=
  let namespaces := parseFilter namespace_filter
  let statuses := parseFilter status_filter
  let fetched := fetchPods namespaces nsLookup clusterItems
  processRequest page page_size sort_by sort_order statuses fetched.1 fetched.2

/-! ## Pod deletion (`delete_kubernetes_pod`, lines 453-611) -/

/-- The result of the `read_namespaced_pod` phase check: the pod's phase, or
an `ApiException` with its status code and reason. -/
inductive ReadPodResult where
  | ok (phase : String)
  | apiError (status : Nat) (reason : String)
deriving DecidableEq, Repr

/-- `delete_kubernetes_pod`: takes the phase-check call's result and the
delete call's result and returns the response together with whether the
delete call was attempted at all. -/
def delete_kubernetes_pod (name «namespace» : String)
    (readResult : ReadPodResult) (deleteResult : Except (Nat × String) Unit) :
    DeletePodResponse × Bool :=
  match readResult with
  | .apiError status reason =>
    if status = 404 then
      ({ success := false, message := "Pod not found"
         error := some ("Pod " ++ name ++ " not found in namespace " ++ «namespace») },
       false)
    else
      ({ success := false, message := "Failed to check pod phase"
         error := some ("Failed to check pod phase: " ++ reason) }, false)
  | .ok pod_phase =>
    if pod_phase = "Running" ∨ pod_phase = "Succeeded" then
      ({ success := false, message := "Cannot delete pod"
         error := some ("Cannot delete pod " ++ name ++ " in namespace "
           ++ «namespace» ++ ". Pod is in '" ++ pod_phase ++ "' phase. "
           ++ "Only pods that are not Running or Succeeded can be deleted.") },
       false)
    else
      match deleteResult with
      | .ok _ =>
        ({ success := true
           message := "Pod " ++ name ++ " in namespace " ++ «namespace»
             ++ " deleted successfully"
           error := none }, true)
      | .error (_, reason) =>
        ({ success := false, message := "Failed to delete pod"
           error := some ("Failed to delete pod: " ++ reason) }, true)

/-! ## IMDS denylist (`helpers/networking.py` and `routes/networking.py`) -/

/-- The three denied hosts, in the order of `IMDS_PATTERNS`. -/
def IMDS_HOSTS : List String :=
  ["169.254.169.254", "[fd00:ec2::254]", "metadata.google.internal"]

/-- `re.match(r"^http://HOST/.*$", url)` for a fixed literal `HOST`:
the url starts with `http://HOST/` and the remainder is newline-free
(`.` does not match a newline), except that `$` also matches just before one
final trailing newline. -/
def matchesIMDSPattern (host url : String) : Bool :=
  let pre := ("http://" ++ host ++ "/").data
  pre.isPrefixOf url.data &&
    (let rest := url.data.drop pre.length
     !rest.contains '\n' ||
       (rest.getLast? = some '\n' && !rest.dropLast.contains '\n'))

/-- `is_imds_endpoint` from `helpers/networking.py`: does any of the three
patterns match? -/
def is_imds_endpoint (url : String) : Bool :=
  IMDS_HOSTS.any (fun host => matchesIMDSPattern host url)

/-- Outcome of the guard at the top of `make_http_request`
(`routes/networking.py`): either the fixed 403 blocked response, or the relay
goes on to attempt the outbound request. -/
inductive HttpRelayOutcome where
  | blocked (status_code : Nat) (error : String)
  | attempted (url : String)
deriving DecidableEq, Repr

/-- The IMDS guard of `make_http_request`: block when `is_imds_endpoint`,
otherwise proceed to the request attempt. -/
def make_http_request (url : String) : HttpRelayOutcome :=
  if is_imds_endpoint url then
    .blocked 403
      "Access to Instance Metadata Service (IMDS) endpoints is not allowed"
  else .attempted url

/-! ## Helper lemmas: the string comparison is a total preorder -/

theorem charListLe_trans : ∀ as bs cs : List Char,
    charListLe as bs = true → charListLe bs cs = true → charListLe as cs = true
  | [], _, _, _, _ => rfl
  | _ :: _, [], _, h₁, _ => by simp [charListLe] at h₁
  | _ :: _, _ :: _, [], _, h₂ => by simp [charListLe] at h₂
  | a :: as, b :: bs, c :: cs, h₁, h₂ => by
    by_cases hab : a < b
    · by_cases hbc : b < c
      · simp [charListLe, lt_trans hab hbc]
      · by_cases hcb : c < b
        · simp [charListLe, hbc, hcb] at h₂
        · have hbc' : b = c := le_antisymm (not_lt.mp hcb) (not_lt.mp hbc)
          subst hbc'
          simp [charListLe, hab]
    · by_cases hba : b < a
      · simp [charListLe, hab, hba] at h₁
      · have hab' : a = b := le_antisymm (not_lt.mp hba) (not_lt.mp hab)
        subst hab'
        simp only [charListLe, lt_irrefl, if_false] at h₁
        by_cases hac : a < c
        · simp [charListLe, hac]
        · by_cases hca : c < a
          · simp [charListLe, hac, hca] at h₂
          · have hac' : a = c := le_antisymm (not_lt.mp hca) (not_lt.mp hac)
            subst hac'
            simp only [charListLe, lt_irrefl, if_false] at h₂ ⊢
            exact charListLe_trans as bs cs h₁ h₂

theorem charListLe_total : ∀ as bs : List Char,
    charListLe as bs = true ∨ charListLe bs as = true
  | [], _ => Or.inl rfl
  | _ :: _, [] => Or.inr rfl
  | a :: as, b :: bs => by
    by_cases hab : a < b
    · exact Or.inl (by simp [charListLe, hab])
    · by_cases hba : b < a
      · exact Or.inr (by simp [charListLe, hba])
      · rcases charListLe_total as bs with h | h
        · exact Or.inl (by simp [charListLe, hab, hba, h])
        · exact Or.inr (by simp [charListLe, hab, hba, h])

theorem strLe_trans (a b c : String) (h₁ : strLe a b = true) (h₂ : strLe b c = true) :
    strLe a c = true :=
  charListLe_trans a.data b.data c.data h₁ h₂

theorem strLe_total (a b : String) : strLe a b = true ∨ strLe b a = true :=
  charListLe_total a.data b.data

theorem natLe_trans (a b c : Nat) (h₁ : natLe a b = true) (h₂ : natLe b c = true) :
    natLe a c = true := by
  simp only [natLe, decide_eq_true_eq] at *
  omega

theorem natLe_total (a b : Nat) : natLe a b = true ∨ natLe b a = true := by
  simp only [natLe, decide_eq_true_eq]
  omega

/-! ## Helper lemmas: the sort relations are total and transitive -/

theorem pyKeyLe_isTrans {β : Type} (le : β → β → Bool)
    (htr : ∀ x y z, le x y = true → le y z = true → le x z = true)
    (key : PodInfo → β) (rev : Bool) : IsTrans PodInfo (pyKeyLe le key rev) := by
  constructor
  intro a b c hab hbc
  unfold pyKeyLe at *
  cases rev with
  | false => exact htr _ _ _ hab hbc
  | true => exact htr _ _ _ hbc hab

theorem pyKeyLe_isTotal {β : Type} (le : β → β → Bool)
    (hto : ∀ x y, le x y = true ∨ le y x = true)
    (key : PodInfo → β) (rev : Bool) : IsTotal PodInfo (pyKeyLe le key rev) := by
  constructor
  intro a b
  unfold pyKeyLe
  cases rev with
  | false => exact hto _ _
  | true => exact (hto _ _).symm

/-- The order relation the claim's sort-key table describes: the requested key
compared ascending (descending when `rev`), string keys lexicographically,
`restart_count` numerically, any unrecognized key collapsing to `name`. -/
def sortKeyRel (sort_by : String) (rev : Bool) : PodInfo → PodInfo → Prop :=
  if sort_by = "name" then pyKeyLe strLe (·.name) rev
  else if sort_by = "namespace" then pyKeyLe strLe (·.«namespace») rev
  else if sort_by = "phase" then pyKeyLe strLe (·.phase) rev
  else if sort_by = "created_timestamp" then pyKeyLe strLe (·.created_timestamp) rev
  else if sort_by = "restart_count" then pyKeyLe natLe (·.restart_count) rev
  else pyKeyLe strLe (·.name) rev

theorem sortPods_perm (sort_by : String) (rev : Bool) (pods : List PodInfo) :
    (sortPods sort_by rev pods).Perm pods := by
  unfold sortPods
  split_ifs <;> exact List.perm_insertionSort _ _

theorem sortPods_length (sort_by : String) (rev : Bool) (pods : List PodInfo) :
    (sortPods sort_by rev pods).length = pods.length :=
  (sortPods_perm sort_by rev pods).length_eq

theorem mem_sortPods {x : PodInfo} (sort_by : String) (rev : Bool)
    (pods : List PodInfo) : x ∈ sortPods sort_by rev pods ↔ x ∈ pods :=
  (sortPods_perm sort_by rev pods).mem_iff

theorem sortPods_sorted (sort_by : String) (rev : Bool) (pods : List PodInfo) :
    (sortPods sort_by rev pods).Sorted (sortKeyRel sort_by rev) := by
  unfold sortPods sortKeyRel
  split_ifs <;>
    [skip; skip; skip; skip; skip; skip] <;>
    first
    | exact
        @List.sorted_insertionSort _ _ _
          (pyKeyLe_isTotal natLe natLe_total _ rev)
          (pyKeyLe_isTrans natLe natLe_trans _ rev) pods
    | exact
        @List.sorted_insertionSort _ _ _
          (pyKeyLe_isTotal strLe strLe_total _ rev)
          (pyKeyLe_isTrans strLe strLe_trans _ rev) pods

theorem sortPods_stable (sort_by : String) (rev : Bool) (pods sub : List PodInfo)
    (hsub : sub.Pairwise (sortKeyRel sort_by rev)) (hc : sub.Sublist pods) :
    sub.Sublist (sortPods sort_by rev pods) := by
  unfold sortKeyRel at hsub
  unfold sortPods
  split_ifs at hsub ⊢ <;> exact List.sublist_insertionSort hsub hc

/-! ## Helper lemmas: the normalizer -/

/-- Whether some entry of `pod.status.conditions` has `type == "Ready"` and
`status == "True"` (the pod-level readiness signal the spec speaks about). -/
def hasReadyTrue (pod : RawPod) : Bool :=
  match pod.status.conditions with
  | some cs => cs.any (fun c => decide (c.type = "Ready" ∧ c.status = "True"))
  | none => false

theorem readyCountLoop_eq (total : Nat) (cs : List PodCondition) :
    readyCountLoop total cs =
      if cs.any (fun c => decide (c.type = "Ready" ∧ c.status = "True")) then total
      else 0 := by
  induction cs with
  | nil => rfl
  | cons c cs ih =>
    by_cases h : c.type = "Ready" ∧ c.status = "True" <;>
      simp [readyCountLoop, h, ih]

theorem ready_count_eq (pod : RawPod) :
    ready_count pod = if hasReadyTrue pod then pod.spec.containers.length else 0 := by
  unfold ready_count hasReadyTrue
  cases pod.status.conditions with
  | none => rfl
  | some cs => exact readyCountLoop_eq _ cs

theorem ready_count_of_no_containers (pod : RawPod)
    (h : pod.spec.containers = []) : ready_count pod = 0 := by
  rw [ready_count_eq, h]
  simp

theorem normalizePod_phase (pod : RawPod) :
    (normalizePod pod).phase = pod.status.phase := rfl

theorem normalizePod_healthy (pod : RawPod) :
    (normalizePod pod).healthy =
      decide (ready_count pod = pod.spec.containers.length ∧
        pod.status.phase = "Running") := rfl

/-! ## Helper lemmas: the filter stage -/

theorem processPods_no_filter (all_pods : List RawPod) :
    processPods [] all_pods = all_pods.map normalizePod := by
  unfold processPods
  rw [List.filter_eq_self.mpr]
  intro a _
  rfl

theorem processPods_multi (statuses : List String) (hne : statuses ≠ [])
    (all_pods : List RawPod) :
    processPods statuses all_pods =
      (all_pods.filter (fun p => statuses.contains p.status.phase)).map
        normalizePod := by
  unfold processPods
  congr 1
  apply List.filter_congr
  intro p _
  unfold keepPod
  cases statuses with
  | nil => exact absurd rfl hne
  | cons s ss => simp

/-! ## Claim theorems -/

/-- C3: for every raw pod, the normalized record is healthy exactly when its
phase is `"Running"` and its ready count equals the number of declared
containers, and the ready count is all-or-nothing: the full container count
when a pod-level `Ready` condition has status `"True"`, zero otherwise. -/
theorem healthy_all_or_nothing (pod : RawPod) :
    ((normalizePod pod).healthy = true ↔
      (normalizePod pod).phase = "Running" ∧
        ready_count pod = pod.spec.containers.length) ∧
    ready_count pod =
      (if hasReadyTrue pod then pod.spec.containers.length else 0) := by
  refine ⟨?_, ready_count_eq pod⟩
  rw [normalizePod_healthy, normalizePod_phase, decide_eq_true_eq, and_comm]

/-- C10: a raw pod declaring zero containers is reported `ready = "0/0"`, and
it is healthy exactly when its phase is `"Running"`, whatever its conditions
(in particular with no `Ready` condition at all). -/
theorem zero_containers_ready (pod : RawPod) (h : pod.spec.containers = []) :
    (normalizePod pod).ready = "0/0" ∧
      ((normalizePod pod).healthy = true ↔ pod.status.phase = "Running") := by
  have h0 := ready_count_of_no_containers pod h
  constructor
  · show toString (ready_count pod) ++ "/" ++
      toString pod.spec.containers.length = "0/0"
    rw [h0, h]
    rfl
  · rw [normalizePod_healthy, decide_eq_true_eq, h0, h]
    simp

/-- C10 witness: a concrete pod with zero containers and no conditions. -/
def w10pod : RawPod :=
  { metadata :=
      { name := "empty", «namespace» := "default", creation_timestamp := none
        labels := none }
    spec := { containers := [], node_name := none }
    status :=
      { phase := "Running", conditions := none, container_statuses := none
        pod_ip := none, host_ip := none } }

theorem zero_containers_ready_witness :
    (normalizePod w10pod).ready = "0/0" ∧
      ((normalizePod w10pod).healthy = true ↔ w10pod.status.phase = "Running") :=
  zero_containers_ready w10pod rfl

/-- C1: the truncation policy for the reported totals: with
`maxFetchLimit = min(pageSize*10, 1000)`, a raw fetched count at or above
`maxFetchLimit` forces `maxLimitReached = true` and `totalItems = 1000`
regardless of the post-filter count; otherwise a fetch-stage
`maxLimitReached` flag reports `totalItems = max 1000 filteredCount`; and
otherwise `totalItems` is the exact filtered count. -/
theorem truncation_policy (page page_size : Nat) (sort_by sort_order : String)
    (statuses : List String) (all_pods : List RawPod) (mlr₀ : Bool) :
    (processRequest page page_size sort_by sort_order statuses all_pods
        mlr₀).max_limit_reached
      = (decide (min (page_size * 10) 1000 ≤ all_pods.length) || mlr₀) ∧
    (processRequest page page_size sort_by sort_order statuses all_pods
        mlr₀).pagination.total_items
      = (if min (page_size * 10) 1000 ≤ all_pods.length then 1000
         else if mlr₀ = true then
           max 1000 (processPods statuses all_pods).length
         else (processPods statuses all_pods).length) := by
  unfold processRequest
  simp only [ge_iff_le, sortPods_length]
  by_cases hlim : min (page_size * 10) 1000 ≤ all_pods.length <;>
    by_cases hmlr : mlr₀ = true <;>
    simp [hlim, hmlr]

/-- C2 counterexample: with `page = 1`, `pageSize = 1` and ten raw pods of
which exactly one survives the status filter, the truncation sentinel makes
the response report `hasNext = true` even though
`endIndex = 1` is not below the pre-adjustment filtered count `1` — refuting
the claim that `hasNext` compares against the filtered count measured before
the truncation-sentinel adjustment. -/
def mkPod (name ns phase : String) : RawPod :=
  { metadata :=
      { name := name, «namespace» := ns, creation_timestamp := none
        labels := none }
    spec := { containers := [{ image := "img" }], node_name := none }
    status :=
      { phase := phase
        conditions := some [{ type := "Ready", status := "True" }]
        container_statuses := none, pod_ip := none, host_ip := none } }

def c2pods : List RawPod :=
  mkPod "r" "ns" "Running" ::
    (List.range 9).map (fun i => mkPod (toString i) "ns" "Succeeded")

theorem has_next_pre_adjustment_counterexample :
    (processRequest 1 1 "name" "asc" ["Pending", "Running"] c2pods
        false).pagination.has_next = true ∧
    ¬ ((1 - 1) * 1 + 1 < (processPods ["Pending", "Running"] c2pods).length) := by
  decide

/-- C2 (amended): the page window: the records are the slice
`[(page-1)*pageSize, (page-1)*pageSize + pageSize)` of the filtered sorted
sequence, `hasPrevious = page > 1`, and `hasNext` compares `endIndex` with the
reported `totalItems` — the value after the truncation-sentinel adjustment,
not the pre-adjustment filtered count. -/
theorem pagination_window (page page_size : Nat) (sort_by sort_order : String)
    (statuses : List String) (all_pods : List RawPod) (mlr₀ : Bool) :
    (processRequest page page_size sort_by sort_order statuses all_pods
        mlr₀).pods =
      ((sortPods sort_by (decide (pyLower sort_order = "desc"))
          (processPods statuses all_pods)).drop
        ((page - 1) * page_size)).take page_size ∧
    (processRequest page page_size sort_by sort_order statuses all_pods
        mlr₀).pagination.has_previous = decide (page > 1) ∧
    (processRequest page page_size sort_by sort_order statuses all_pods
        mlr₀).pagination.has_next =
      decide ((page - 1) * page_size + page_size <
        (processRequest page page_size sort_by sort_order statuses all_pods
          mlr₀).pagination.total_items) := by
  unfold processRequest
  simp

/-- C4: a delete request for a pod whose phase check reports `"Running"` or
`"Succeeded"` is answered `success = false`, `message = "Cannot delete pod"`,
with no delete call attempted; and conversely the delete call is only ever
attempted when the phase check succeeded with a phase outside
`{Running, Succeeded}`. -/
theorem delete_phase_guard (name ns phase : String)
    (deleteResult : Except (Nat × String) Unit)
    (h : phase = "Running" ∨ phase = "Succeeded") :
    (delete_kubernetes_pod name ns (.ok phase) deleteResult).1.success = false ∧
    (delete_kubernetes_pod name ns (.ok phase) deleteResult).1.message =
      "Cannot delete pod" ∧
    (delete_kubernetes_pod name ns (.ok phase) deleteResult).2 = false ∧
    (∀ (rr : ReadPodResult) (dr : Except (Nat × String) Unit),
      (delete_kubernetes_pod name ns rr dr).2 = true →
      ∃ ph, rr = .ok ph ∧ ph ≠ "Running" ∧ ph ≠ "Succeeded") := by
  have hmain : delete_kubernetes_pod name ns (.ok phase) deleteResult =
      ({ success := false, message := "Cannot delete pod"
         error := some ("Cannot delete pod " ++ name ++ " in namespace "
           ++ ns ++ ". Pod is in '" ++ phase ++ "' phase. "
           ++ "Only pods that are not Running or Succeeded can be deleted.") },
       false) := by
    simp only [delete_kubernetes_pod]
    rw [if_pos h]
  refine ⟨by rw [hmain], by rw [hmain], by rw [hmain], ?_⟩
  intro rr dr hatt
  cases rr with
  | apiError status reason =>
    simp only [delete_kubernetes_pod] at hatt
    by_cases h404 : status = 404 <;> simp [h404] at hatt
  | ok ph =>
    refine ⟨ph, rfl, ?_⟩
    by_cases hph : ph = "Running" ∨ ph = "Succeeded"
    · simp only [delete_kubernetes_pod] at hatt
      rw [if_pos hph] at hatt
      simp at hatt
    · push_neg at hph
      exact hph

/-- C4 witness: a running pod's deletion is refused without attempting the
delete call, and the attempt flag entails a non-protected phase. -/
theorem delete_phase_guard_witness :
    (delete_kubernetes_pod "web" "default" (.ok "Running") (.ok ())).1.success =
      false ∧
    (delete_kubernetes_pod "web" "default" (.ok "Running") (.ok ())).1.message =
      "Cannot delete pod" ∧
    (delete_kubernetes_pod "web" "default" (.ok "Running") (.ok ())).2 = false ∧
    (∀ (rr : ReadPodResult) (dr : Except (Nat × String) Unit),
      (delete_kubernetes_pod "web" "default" rr dr).2 = true →
      ∃ ph, rr = .ok ph ∧ ph ≠ "Running" ∧ ph ≠ "Succeeded") :=
  delete_phase_guard "web" "default" "Running" (.ok ()) (Or.inl rfl)

/-- The fan-out loop treats a namespace whose call raised exactly like a
namespace that returned zero pods, as long as the accumulator has not hit the
cap (which it never has at loop entry). -/
theorem fetchLoop_error_skip (nsLookup nsLookup' : String → Except String (List RawPod))
    (n e : String) (hn : nsLookup n = .error e) (hn' : nsLookup' n = .ok [])
    (hother : ∀ m, m ≠ n → nsLookup m = nsLookup' m) :
    ∀ (nss : List String) (acc : List RawPod), acc.length < 1000 →
      fetchLoop (nss.map nsLookup) acc = fetchLoop (nss.map nsLookup') acc := by
  intro nss
  induction nss with
  | nil => intro acc _; rfl
  | cons m rest ih =>
    intro acc hacc
    by_cases hm : m = n
    · subst hm
      rw [List.map_cons, List.map_cons, hn, hn']
      have hlhs : fetchLoop (Except.error e :: rest.map nsLookup) acc =
          fetchLoop (rest.map nsLookup) acc := rfl
      have hrhs : fetchLoop (Except.ok [] :: rest.map nsLookup') acc =
          if (acc ++ []).length ≥ 1000 then (acc ++ [], true)
          else fetchLoop (rest.map nsLookup') (acc ++ []) := rfl
      rw [hlhs, hrhs, List.append_nil, if_neg (by omega)]
      exact ih acc hacc
    · rw [List.map_cons, List.map_cons, hother m hm]
      cases h : nsLookup' m with
      | error e' =>
        have hlhs : fetchLoop (Except.error e' :: rest.map nsLookup) acc =
            fetchLoop (rest.map nsLookup) acc := rfl
        have hrhs : fetchLoop (Except.error e' :: rest.map nsLookup') acc =
            fetchLoop (rest.map nsLookup') acc := rfl
        rw [hlhs, hrhs]
        exact ih acc hacc
      | ok items =>
        have hlhs : fetchLoop (Except.ok items :: rest.map nsLookup) acc =
            if (acc ++ items).length ≥ 1000 then (acc ++ items, true)
            else fetchLoop (rest.map nsLookup) (acc ++ items) := rfl
        have hrhs : fetchLoop (Except.ok items :: rest.map nsLookup') acc =
            if (acc ++ items).length ≥ 1000 then (acc ++ items, true)
            else fetchLoop (rest.map nsLookup') (acc ++ items) := rfl
        rw [hlhs, hrhs]
        by_cases hlen : (acc ++ items).length ≥ 1000
        · rw [if_pos hlen, if_pos hlen]
        · rw [if_neg hlen, if_neg hlen]
          exact ih (acc ++ items) (by omega)

/-- C5: a pods request over several namespaces where one namespace's list call
raises behaves exactly as if that namespace had returned zero pods: the
exception is swallowed, the other namespaces' pods are kept, and the request
still succeeds (no error in the response). -/
theorem namespace_failure_tolerated (page page_size : Nat)
    (sort_by sort_order : String)
    (namespace_filter status_filter : Option String)
    (clusterItems : List RawPod)
    (nsLookup nsLookup' : String → Except String (List RawPod)) (n e : String)
    (hn : nsLookup n = .error e) (hn' : nsLookup' n = .ok [])
    (hother : ∀ m, m ≠ n → nsLookup m = nsLookup' m) :
    get_kubernetes_pods page page_size sort_by sort_order namespace_filter
        status_filter nsLookup clusterItems =
      get_kubernetes_pods page page_size sort_by sort_order namespace_filter
        status_filter nsLookup' clusterItems ∧
    (get_kubernetes_pods page page_size sort_by sort_order namespace_filter
        status_filter nsLookup clusterItems).error = none := by
  constructor
  · have hf := fetchLoop_error_skip nsLookup nsLookup' n e hn hn' hother
      (parseFilter namespace_filter) [] (by simp)
    simp only [get_kubernetes_pods, fetchPods]
    by_cases hns : (parseFilter namespace_filter).isEmpty = true
    · simp only [if_pos hns]
    · simp only [if_neg hns, hf]
  · rfl

/-- C5 witness: namespaces `a,b` where `b`'s call raises: the response equals
the one where `b` contributes nothing, and carries no error. -/
def w5pod : RawPod := mkPod "w5" "a" "Running"

def w5lookup : String → Except String (List RawPod) :=
  fun m => if m = "b" then .error "boom" else .ok [w5pod]

def w5lookup' : String → Except String (List RawPod) :=
  fun m => if m = "b" then .ok [] else .ok [w5pod]

theorem namespace_failure_tolerated_witness :
    get_kubernetes_pods 1 50 "name" "asc" (some "a,b") none w5lookup [] =
      get_kubernetes_pods 1 50 "name" "asc" (some "a,b") none w5lookup' [] ∧
    (get_kubernetes_pods 1 50 "name" "asc" (some "a,b") none w5lookup
        []).error = none :=
  namespace_failure_tolerated 1 50 "name" "asc" (some "a,b") none []
    w5lookup w5lookup' "b" "boom" rfl rfl
    (fun m hm => by simp [w5lookup, w5lookup', hm])

/-- C8: with a status filter of two or more entries, every record in the
response has a phase from that set; the list entering the sort step is
exactly the normalization of the fetched pods whose phase is in the set, a
subsequence of the fetch order (so the surviving records keep their fetch
order). -/
theorem multi_status_filter (page page_size : Nat) (sort_by sort_order : String)
    (statuses : List String) (h2 : 2 ≤ statuses.length)
    (all_pods : List RawPod) (mlr₀ : Bool) :
    (∀ rec ∈ (processRequest page page_size sort_by sort_order statuses
        all_pods mlr₀).pods, rec.phase ∈ statuses) ∧
    processPods statuses all_pods =
      (all_pods.filter (fun p => statuses.contains p.status.phase)).map
        normalizePod ∧
    (all_pods.filter (fun p => statuses.contains p.status.phase)).Sublist
      all_pods := by
  have hne : statuses ≠ [] := by
    intro h
    rw [h] at h2
    simp at h2
  refine ⟨?_, processPods_multi statuses hne all_pods, List.filter_sublist _⟩
  intro rec hrec
  have h1 : rec ∈ (sortPods sort_by
      (decide (pyLower sort_order = "desc")) (processPods statuses all_pods)) := by
    unfold processRequest at hrec
    simp only at hrec
    exact List.mem_of_mem_drop (List.mem_of_mem_take hrec)
  rw [mem_sortPods, processPods_multi statuses hne all_pods] at h1
  obtain ⟨p, hp, hrecp⟩ := List.mem_map.mp h1
  have hkeep := List.of_mem_filter hp
  rw [← hrecp, normalizePod_phase]
  exact List.elem_iff.mp hkeep

/-- C8 witness: with `statuses = ["Running", "Failed"]` and a mixed input, a
concrete record of the response page has its phase in the set. -/
def w8podR : RawPod := mkPod "keepme" "ns" "Running"

def w8pods : List RawPod :=
  [mkPod "drop1" "ns" "Succeeded", w8podR, mkPod "drop2" "ns" "Pending"]

theorem multi_status_filter_witness :
    (normalizePod w8podR).phase ∈ ["Running", "Failed"] :=
  (multi_status_filter 1 50 "name" "asc" ["Running", "Failed"] (by decide)
      w8pods false).1 (normalizePod w8podR) (by decide)

/-- C9: the IMDS denylist matches only URLs that literally begin with
`http://` + one of the three denied hosts + `/`; every other URL — an
`https://` URL of those hosts, an `http://` URL of them with nothing after
the host, or anything else — is not flagged, and the relay proceeds to
attempt it instead of returning the blocked-access error. -/
theorem imds_denylist_scope (url : String) :
    (is_imds_endpoint url = true →
      IMDS_HOSTS.any
        (fun host => ("http://" ++ host ++ "/").data.isPrefixOf url.data) =
        true) ∧
    (IMDS_HOSTS.any
        (fun host => ("http://" ++ host ++ "/").data.isPrefixOf url.data) =
        false →
      is_imds_endpoint url = false ∧ make_http_request url = .attempted url) := by
  have hmono : is_imds_endpoint url = true →
      IMDS_HOSTS.any
        (fun host => ("http://" ++ host ++ "/").data.isPrefixOf url.data) =
        true := by
    intro h
    unfold is_imds_endpoint at h
    rw [List.any_eq_true] at h ⊢
    obtain ⟨host, hmem, hmatch⟩ := h
    refine ⟨host, hmem, ?_⟩
    unfold matchesIMDSPattern at hmatch
    exact (Bool.and_eq_true _ _).mp hmatch |>.1
  refine ⟨hmono, fun hno => ?_⟩
  have himds : is_imds_endpoint url = false := by
    cases h : is_imds_endpoint url with
    | false => rfl
    | true => rw [hmono h] at hno; cases hno
  refine ⟨himds, ?_⟩
  unfold make_http_request
  rw [himds]
  simp

/-- C9 witness: an `https://` URL of a denied host and an `http://` URL of a
denied host with no path are both relayed, not blocked. -/
theorem imds_denylist_scope_witness :
    (is_imds_endpoint "https://169.254.169.254/latest/api/token" = false ∧
      make_http_request "https://169.254.169.254/latest/api/token" =
        .attempted "https://169.254.169.254/latest/api/token") ∧
    (is_imds_endpoint "http://metadata.google.internal" = false ∧
      make_http_request "http://metadata.google.internal" =
        .attempted "http://metadata.google.internal") :=
  ⟨(imds_denylist_scope "https://169.254.169.254/latest/api/token").2
      (by decide),
    (imds_denylist_scope "http://metadata.google.internal").2 (by decide)⟩

/-- C6 counterexample: with the unrecognized sort key `"bogus"` and
`sort_order = "desc"`, the code sorts by name descending (the fallback passes
`reverse=reverse_sort` through), returning `["b", "a"]` — not by name
ascending as claimed. -/
def w6podA : RawPod := mkPod "a" "ns" "Running"

def w6podB : RawPod := mkPod "b" "ns" "Running"

theorem unrecognized_sort_key_counterexample :
    ((processRequest 1 50 "bogus" "desc" [] [w6podA, w6podB]
        false).pods.map (·.name)) = ["b", "a"] ∧
    (["b", "a"] : List String) ≠ ["a", "b"] := by
  decide

/-- C6 (amended): the records are stably sorted by the requested key among
`name`, `namespace`, `phase`, `created_timestamp`, `restart_count` (strings
lexicographically, restart count numerically), ascending or descending as
requested; an unrecognized sort key falls back to sorting by `name` in the
requested order (not forced ascending). Stability: any two records tied on
the sort key keep their pre-sort relative order. -/
theorem sort_behavior (sort_by : String) (rev : Bool) (pods : List PodInfo) :
    (sortPods sort_by rev pods).Perm pods ∧
    (sortPods sort_by rev pods).Sorted (sortKeyRel sort_by rev) ∧
    (∀ sub : List PodInfo,
      sub.Pairwise (fun a b =>
        sortKeyRel sort_by rev a b ∧ sortKeyRel sort_by rev b a) →
      sub.Sublist pods → sub.Sublist (sortPods sort_by rev pods)) ∧
    (sort_by ≠ "name" → sort_by ≠ "namespace" → sort_by ≠ "phase" →
      sort_by ≠ "created_timestamp" → sort_by ≠ "restart_count" →
      sortPods sort_by rev pods = sortPods "name" rev pods) := by
  refine ⟨sortPods_perm _ _ _, sortPods_sorted _ _ _, ?_, ?_⟩
  · intro sub hsub hc
    exact sortPods_stable _ _ _ _ (hsub.imp And.left) hc
  · intro h1 h2 h3 h4 h5
    simp [sortPods, h1, h2, h3, h4, h5]

/-- C6 witness: two same-named records stay in order (stability with the
`name` key), and the fallback key sorts exactly like the `name` key in the
requested (descending) order. -/
def w6tie1 : PodInfo := normalizePod (mkPod "same" "ns1" "Running")

def w6tie2 : PodInfo := normalizePod (mkPod "same" "ns2" "Running")

theorem sort_behavior_witness :
    (sortPods "bogus" true [w6tie1, w6tie2]).Perm [w6tie1, w6tie2] ∧
    ([w6tie1, w6tie2] : List PodInfo).Sublist
      (sortPods "name" false [w6tie1, w6tie2]) ∧
    sortPods "bogus" true [w6tie1, w6tie2] =
      sortPods "name" true [w6tie1, w6tie2] :=
  ⟨(sort_behavior "bogus" true [w6tie1, w6tie2]).1,
    (sort_behavior "name" false [w6tie1, w6tie2]).2.2.1 [w6tie1, w6tie2]
      (List.pairwise_pair.mpr
        ⟨(show pyKeyLe strLe (fun x => x.name) false w6tie1 w6tie2 by decide),
          (show pyKeyLe strLe (fun x => x.name) false w6tie2 w6tie1 by decide)⟩)
      (List.Sublist.refl _),
    (sort_behavior "bogus" true [w6tie1, w6tie2]).2.2.2 (by decide) (by decide)
      (by decide) (by decide) (by decide)⟩

/-- Ceiling division: `ti ≤ ceil(ti/ps) * ps`. -/
theorem le_ceil_mul (ti ps : Nat) (hps : 0 < ps) :
    ti ≤ ((ti + ps - 1) / ps) * ps := by
  have hdm := Nat.div_add_mod (ti + ps - 1) ps
  have hmod : (ti + ps - 1) % ps < ps := Nat.mod_lt _ hps
  rw [Nat.mul_comm]
  generalize hX : ps * ((ti + ps - 1) / ps) = X at hdm ⊢
  omega

/-- For any page strictly beyond `totalPages`, the `hasNext` comparison is
false, and the window slice is empty as soon as the sliced list is no longer
than the reported total. -/
theorem window_after_last (sorted : List PodInfo) (page ps k TI : Nat)
    (hps : 0 < ps)
    (hpage : (if TI > 0 then (TI + ps - 1) / ps else 1) < page) :
    decide ((page - 1) * ps + ps < TI) = false ∧
    (sorted.length ≤ TI → ((sorted.drop ((page - 1) * ps)).take k) = []) := by
  have hti_le : TI ≤ (page - 1) * ps := by
    by_cases hti : TI > 0
    · rw [if_pos hti] at hpage
      have h2 := le_ceil_mul TI ps hps
      generalize hq : (TI + ps - 1) / ps = q at hpage h2
      have h1 : q ≤ page - 1 := by omega
      exact le_trans h2 (Nat.mul_le_mul_right ps h1)
    · omega
  constructor
  · refine decide_eq_false ?_
    generalize (page - 1) * ps = A at hti_le ⊢
    omega
  · intro hlen
    rw [List.drop_eq_nil_of_le (le_trans hlen hti_le)]
    exact List.take_nil

/-- C7 (amended): for a request whose page lies strictly beyond `totalPages`,
the response has `hasNext = false`; and the slice of records is empty
whenever the filtered record count does not exceed the reported `totalItems`
— which is always the case except when raw-fetch truncation forced
`totalItems = 1000` while more than 1000 records survived filtering, where a
page beyond `totalPages` can still carry records. -/
theorem beyond_last_page (page page_size : Nat) (sort_by sort_order : String)
    (statuses : List String) (all_pods : List RawPod) (mlr₀ : Bool)
    (hps : 0 < page_size)
    (hpage : (processRequest page page_size sort_by sort_order statuses
        all_pods mlr₀).pagination.total_pages < page) :
    (processRequest page page_size sort_by sort_order statuses all_pods
        mlr₀).pagination.has_next = false ∧
    ((processPods statuses all_pods).length ≤
        (processRequest page page_size sort_by sort_order statuses all_pods
          mlr₀).pagination.total_items →
      (processRequest page page_size sort_by sort_order statuses all_pods
        mlr₀).pods = []) := by
  have key := window_after_last
    (sortPods sort_by (decide (pyLower sort_order = "desc"))
      (processPods statuses all_pods))
    page page_size
    ((page - 1) * page_size + page_size - (page - 1) * page_size)
    ((processRequest page page_size sort_by sort_order statuses all_pods
      mlr₀).pagination.total_items)
    hps hpage
  refine ⟨key.1, fun h => key.2 ?_⟩
  rw [sortPods_length]
  exact h

/-- C7 witness: a request five pages past a three-record result: empty slice
and `hasNext = false`. -/
def w7smallPods : List RawPod :=
  [mkPod "x" "ns" "Running", mkPod "y" "ns" "Running", mkPod "z" "ns" "Running"]

theorem beyond_last_page_witness :
    (processRequest 5 1 "name" "asc" [] w7smallPods
        false).pagination.has_next = false ∧
    (processRequest 5 1 "name" "asc" [] w7smallPods false).pods = [] := by
  have h := beyond_last_page 5 1 "name" "asc" [] w7smallPods false (by decide)
    (by decide)
  exact ⟨h.1, h.2 (by decide)⟩

/-- C7 counterexample: two namespaces contributing 999 and 1000 pods make the
fetch stop at 1999 raw pods; truncation reports `totalItems = 1000`, so
`totalPages = 1` at `pageSize = 1000` — yet page 2 still returns 999 records,
a non-empty slice beyond the last page. -/
def w7podBig : RawPod := mkPod "big" "ns" "Running"

def w7lookup : String → Except String (List RawPod) :=
  fun m =>
    if m = "a" then .ok (List.replicate 999 w7podBig)
    else .ok (List.replicate 1000 w7podBig)

theorem fetchLoop_cons_ok (items : List RawPod)
    (l : List (Except String (List RawPod))) (acc : List RawPod) :
    fetchLoop (Except.ok items :: l) acc =
      if (acc ++ items).length ≥ 1000 then (acc ++ items, true)
      else fetchLoop l (acc ++ items) := rfl

theorem fetchPods_cons (n : String) (ns : List String)
    (nsLookup : String → Except String (List RawPod)) (ci : List RawPod) :
    fetchPods (n :: ns) nsLookup ci = fetchLoop ((n :: ns).map nsLookup) [] := by
  unfold fetchPods
  rw [if_neg]
  simp

/-- For any 1999-element raw pod list, the request `page=2, pageSize=1000`
(no filters, fetch already capped) reports `totalPages = 1` yet slices 999
records. -/
theorem beyond_last_page_core (l : List RawPod) (hl : l.length = 1999) :
    (processRequest 2 1000 "name" "asc" [] l true).pagination.total_pages =
      1 ∧
    (processRequest 2 1000 "name" "asc" [] l true).pods.length = 999 := by
  constructor
  · simp only [processRequest]
    rw [hl]
    norm_num [Nat.min_def]
  · simp only [processRequest]
    rw [List.length_take, List.length_drop, sortPods_length,
      processPods_no_filter, List.length_map, hl]
    omega

theorem beyond_last_page_counterexample :
    (get_kubernetes_pods 2 1000 "name" "asc" (some "a,b") none w7lookup
        []).pagination.total_pages < 2 ∧
    (get_kubernetes_pods 2 1000 "name" "asc" (some "a,b") none w7lookup
        []).pods ≠ [] := by
  have hparse : parseFilter (some "a,b") = ["a", "b"] := by decide
  have hone : ¬ ((([] : List RawPod) ++ List.replicate 999 w7podBig).length ≥
      1000) := by
    rw [List.nil_append, List.length_replicate]
    decide
  have htwo : (([] : List RawPod) ++ List.replicate 999 w7podBig ++
      List.replicate 1000 w7podBig).length ≥ 1000 := by
    rw [List.nil_append, List.length_append, List.length_replicate,
      List.length_replicate]
    decide
  have ha : w7lookup "a" = Except.ok (List.replicate 999 w7podBig) := rfl
  have hb : w7lookup "b" = Except.ok (List.replicate 1000 w7podBig) := rfl
  have hfetch : fetchPods (parseFilter (some "a,b")) w7lookup [] =
      (List.replicate 1999 w7podBig, true) := by
    rw [hparse, fetchPods_cons, List.map_cons, List.map_cons, List.map_nil,
      ha, hb,
      fetchLoop_cons_ok, if_neg hone, fetchLoop_cons_ok, if_pos htwo,
      List.nil_append, ← List.replicate_add,
      show (999 : Nat) + 1000 = 1999 by decide]
  have hroute : get_kubernetes_pods 2 1000 "name" "asc" (some "a,b") none
      w7lookup [] =
      processRequest 2 1000 "name" "asc" [] (List.replicate 1999 w7podBig)
        true := by
    have h0 : get_kubernetes_pods 2 1000 "name" "asc" (some "a,b") none
        w7lookup [] =
        processRequest 2 1000 "name" "asc" []
          (fetchPods (parseFilter (some "a,b")) w7lookup []).1
          (fetchPods (parseFilter (some "a,b")) w7lookup []).2 := rfl
    rw [h0, hfetch]
  have hlrep : (List.replicate 1999 w7podBig).length = 1999 := by
    rw [List.length_replicate]
  have hcore := beyond_last_page_core (List.replicate 1999 w7podBig) hlrep
  constructor
  · rw [hroute, hcore.1]
    omega
  · rw [hroute]
    intro hnil
    have hlen := hcore.2
    rw [hnil] at hlen
    exact absurd hlen (by decide)
